import Mathlib

/-!
Shallow embedding of the edge-docking / visibility subsystem of
`src/main.py` (classes `EdgeArrow` and `tarrow`), together with proofs of
the specified properties.

Coordinates follow Qt's integer-rectangle convention used by the source:
a `QRect(x, y, w, h)` has `right() = x + w - 1` and `bottom() = y + h - 1`,
and `contains` is inclusive on all four sides.  Python floats are embedded
as exact rationals, Python `int()` as truncation toward zero, and Python
`//` as floor division.
-/

namespace Tarrow

/-- A point in the multi-monitor virtual coordinate space (`QPoint`). -/
structure Point where
  x : Int
  y : Int
deriving DecidableEq, Repr

/-- An integer rectangle in Qt convention (`QRect(x, y, w, h)`). -/
structure Rect where
  x : Int
  y : Int
  w : Int
  h : Int
deriving DecidableEq, Repr

def Rect.left (g : Rect) : Int := g.x

def Rect.right (g : Rect) : Int := g.x + g.w - 1

def Rect.top (g : Rect) : Int := g.y

def Rect.bottom (g : Rect) : Int := g.y + g.h - 1

/-- `QRect.contains(point)`: inclusive on all four sides. -/
def Rect.containsPt (g : Rect) (p : Point) : Bool :=
  decide (g.left ≤ p.x) && decide (p.x ≤ g.right) &&
  decide (g.top ≤ p.y) && decide (p.y ≤ g.bottom)

/-- A physical display: stable name plus live geometry (`QScreen`). -/
structure Screen where
  name : String
  geom : Rect
deriving DecidableEq, Repr

/-- The four dock edges, in the declaration order of the source strings. -/
inductive Edge where
  | left
  | right
  | top
  | bottom
deriving DecidableEq, Repr

/-- `edge in ['top', 'bottom']`: the edge whose trigger is horizontal. -/
def Edge.isHorizontal : Edge → Bool
  | .top => true
  | .bottom => true
  | _ => false

/-- `max(0, min(1, q))`, the clamping used for normalized edge positions. -/
def clamp01 (q : ℚ) : ℚ := max 0 (min 1 q)

/-- Python `int()` applied to a rational: truncation toward zero. -/
def pyInt (q : ℚ) : Int := if 0 ≤ q then ⌊q⌋ else ⌈q⌉

/-- Squared clamped-per-axis distance from point `p` to rectangle `g`
(`dx = max(0, left - x, x - right)` etc., `dist = dx*dx + dy*dy`). -/
def clampedDist2 (g : Rect) (p : Point) : Int :=
  let dx := max 0 (max (g.left - p.x) (p.x - g.right))
  let dy := max 0 (max (g.top - p.y) (p.y - g.bottom))
  dx * dx + dy * dy

/-- Distance of `p` to screen `s` as used by the closest-screen loop. -/
def dist2 (p : Point) (s : Screen) : Int := clampedDist2 s.geom p

/-- The first screen whose geometry contains the point
(the `for ... break` loop in `calculate_edge_and_position`). -/
def findContaining (screens : List Screen) (p : Point) : Option Screen :=
  screens.find? (fun s => s.geom.containsPt p)

/-- The running-minimum loop of `calculate_edge_and_position`'s `else`
branch: keep the current best unless a strictly closer screen appears. -/
def loopMin (p : Point) (best : Screen) : List Screen → Screen
  | [] => best
  | s :: rest =>
      if dist2 p s < dist2 p best then loopMin p s rest
      else loopMin p best rest

/-- Closest-screen selection (`min_dist = inf` start: the first screen
always replaces the initial `None`). -/
def closestScreen (p : Point) : List Screen → Option Screen
  | [] => none
  | s :: rest => some (loopMin p s rest)

/-- Target-screen selection of `calculate_edge_and_position`: first
containing screen, else closest by clamped squared distance. -/
def targetScreen (screens : List Screen) (p : Point) : Option Screen :=
  match findContaining screens p with
  | some s => some s
  | none => closestScreen p screens

/-- Edge and normalized-position selection on the chosen screen:
minimum of the four absolute boundary distances, ties in the order
left, right, top, bottom; position clamped to [0, 1]. -/
def edgeAndPos (g : Rect) (p : Point) : Edge × ℚ :=
  let dl := |p.x - g.left|
  let dr := |p.x - g.right|
  let dt := |p.y - g.top|
  let db := |p.y - g.bottom|
  let m := min (min dl dr) (min dt db)
  let vpos := clamp01 (((p.y - g.y : Int) : ℚ) / ((g.h : Int) : ℚ))
  let hpos := clamp01 (((p.x - g.x : Int) : ℚ) / ((g.w : Int) : ℚ))
  if m = dl then (Edge.left, vpos)
  else if m = dr then (Edge.right, vpos)
  else if m = dt then (Edge.top, hpos)
  else (Edge.bottom, hpos)

/-- `EdgeArrow.calculate_edge_and_position`: resolve a global point to
`(edge, position, screen)`.  Returns `none` only on an empty screen
list (where the source would fall back to `QApplication.primaryScreen()`). -/
def calculate_edge_and_position (screens : List Screen) (p : Point) :
    Option (Edge × ℚ × Screen) :=
  match targetScreen screens p with
  | none => none
  | some s =>
      let ep := edgeAndPos s.geom p
      some (ep.1, ep.2, s)

/-- The mutable state of the `EdgeArrow` trigger widget: dock state
(`edge`, `edge_position`, `screen`), widget geometry (`pos`, current
`width`/`height`, `base_size`, `expanded_size`), pin latch and alert
animation state.  `breathing_running` models whether `breathing_timer`
is currently started. -/
structure ArrowState where
  edge : Edge
  edge_position : ℚ
  screen : Screen
  pos : Point
  width : Int
  height : Int
  base_size : Int × Int
  expanded_size : Int × Int
  is_pinned : Bool
  is_alert : Bool
  alert_opacity : ℚ
  alert_increasing : Bool
  breathing_running : Bool
deriving DecidableEq, Repr

/-- The live widget rectangle `QRect(self.pos(), self.size())`. -/
def ArrowState.rect (a : ArrowState) : Rect :=
  ⟨a.pos.x, a.pos.y, a.width, a.height⟩

/-- `EdgeArrow.update_sizes_for_edge`: pick the base/expanded size pair
for the current edge's orientation, then `resize(*base_size)`. -/
def update_sizes_for_edge (a : ArrowState) : ArrowState :=
  let a :=
    if a.edge = Edge.top ∨ a.edge = Edge.bottom then
      { a with base_size := (60, 30), expanded_size := (80, 40) }
    else
      { a with base_size := (30, 60), expanded_size := (40, 80) }
  { a with width := a.base_size.1, height := a.base_size.2 }

/-- `EdgeArrow.position_on_edge`: move the widget flush against the
docked boundary, offset along the edge by
`int(edge_position * (edge_length - widget_length))`. -/
def position_on_edge (a : ArrowState) : ArrowState :=
  let g := a.screen.geom
  match a.edge with
  | .right =>
      { a with pos := ⟨g.right - a.width + 1,
                       g.y + pyInt (a.edge_position * ((g.h - a.height : Int) : ℚ))⟩ }
  | .left =>
      { a with pos := ⟨g.x,
                       g.y + pyInt (a.edge_position * ((g.h - a.height : Int) : ℚ))⟩ }
  | .top =>
      { a with pos := ⟨g.x + pyInt (a.edge_position * ((g.w - a.width : Int) : ℚ)),
                       g.y⟩ }
  | .bottom =>
      { a with pos := ⟨g.x + pyInt (a.edge_position * ((g.w - a.width : Int) : ℚ)),
                       g.bottom - a.height + 1⟩ }

/-- `EdgeArrow.set_pinned`. -/
def set_pinned (a : ArrowState) (pinned : Bool) : ArrowState :=
  { a with is_pinned := pinned }

/-- `EdgeArrow.set_alert_state`: on a change of the alert flag, start the
50ms breathing timer with `alert_opacity = 0.0, alert_increasing = True`,
or stop it and reset `alert_opacity` to `0.0`. -/
def set_alert_state (a : ArrowState) (is_alert : Bool) : ArrowState :=
  if a.is_alert ≠ is_alert then
    if is_alert then
      { a with is_alert := true, alert_opacity := 0, alert_increasing := true,
               breathing_running := true }
    else
      { a with is_alert := false, breathing_running := false, alert_opacity := 0 }
  else a

/-- `EdgeArrow.update_breathing`: one 50ms breathing tick, stepping
`alert_opacity` by `0.05` with direction flips at `1.0` and `0.2`. -/
def update_breathing (a : ArrowState) : ArrowState :=
  let step : ℚ := mkRat 1 20
  if a.alert_increasing then
    let o := a.alert_opacity + step
    if 1 ≤ o then { a with alert_opacity := 1, alert_increasing := false }
    else { a with alert_opacity := o }
  else
    let o := a.alert_opacity - step
    if o ≤ mkRat 1 5 then
      { a with alert_opacity := mkRat 1 5, alert_increasing := true }
    else { a with alert_opacity := o }

/-- The drag-commit portion of `EdgeArrow.mouseReleaseEvent`: resolve the
release point, adopt the new `(edge, position, screen)`, swap the size
pair when the edge orientation changed, then reposition.  On an empty
screen list (resolution fails) the dock state is left as-is and only
`position_on_edge` runs, like the source's `if screen:` guard. -/
def mouseReleaseEvent (screens : List Screen) (a : ArrowState)
    (releasePos : Point) : ArrowState :=
  match calculate_edge_and_position screens releasePos with
  | none => position_on_edge a
  | some (e, q, s) =>
      let old_edge := a.edge
      let a := { a with edge := e, edge_position := q, screen := s }
      let a :=
        if (¬ old_edge.isHorizontal ∧ e.isHorizontal) ∨
           (old_edge.isHorizontal ∧ ¬ e.isHorizontal) then
          update_sizes_for_edge a
        else a
      position_on_edge a

/-- The size-pair part of the dock orientation invariant: the base and
expanded sizes are the pair `update_sizes_for_edge` assigns for the
current edge's orientation. -/
def sizesMatchEdge (a : ArrowState) : Bool :=
  if a.edge.isHorizontal then
    decide (a.base_size = (60, 30)) && decide (a.expanded_size = (80, 40))
  else
    decide (a.base_size = (30, 60)) && decide (a.expanded_size = (40, 80))

/-- The `EdgeArrow.__init__` state (defaults `edge='right'`,
`edge_position=0.5`, alert off, followed by the constructor's calls to
`update_sizes_for_edge` and `position_on_edge`). -/
def initArrow (primary : Screen) : ArrowState :=
  position_on_edge (update_sizes_for_edge
    { edge := .right
      edge_position := mkRat 1 2
      screen := primary
      pos := ⟨0, 0⟩
      width := 0
      height := 0
      base_size := (0, 0)
      expanded_size := (0, 0)
      is_pinned := false
      is_alert := false
      alert_opacity := 0
      alert_increasing := true
      breathing_running := false })

/-- Position and size of a plain top-level widget (the stats overlay and
the compact HUD). -/
structure WidgetGeom where
  pos : Point
  width : Int
  height : Int
deriving DecidableEq, Repr

/-- `QRect(widget.pos(), widget.size())`. -/
def WidgetGeom.rect (wg : WidgetGeom) : Rect :=
  ⟨wg.pos.x, wg.pos.y, wg.width, wg.height⟩

/-- The mutable state of the `tarrow` application object that the
docking/visibility subsystem touches.  `compact_hud_screen` models the
geometry of the screen `compact_hud.screen()` reports. -/
structure AppState where
  arrow : ArrowState
  overlay : WidgetGeom
  overlay_pinned : Bool
  overlay_visible : Bool
  compact_hud : WidgetGeom
  compact_hud_screen : Rect
  compact_mode : Bool
  hotkey_is_down : Bool
  high_resource_usage : Bool
  alert_threshold : ℚ
deriving DecidableEq, Repr

/-- `tarrow.check_hover_state`: the 100ms reconciliation tick.  Returns
early when the overlay is not visible, is pinned, or the hotkey is down;
otherwise hides the overlay when the cursor is outside both the trigger
widget's rectangle and the overlay's rectangle. -/
def check_hover_state (s : AppState) (cursor : Point) : AppState :=
  if ¬ s.overlay_visible ∨ s.overlay_pinned ∨ s.hotkey_is_down then s
  else
    let trigger_rect :=
      if s.compact_mode then s.compact_hud.rect else s.arrow.rect
    let cursor_over_trigger := trigger_rect.containsPt cursor
    let cursor_over_overlay := s.overlay.rect.containsPt cursor
    if ¬ cursor_over_trigger ∧ ¬ cursor_over_overlay then
      { s with overlay_visible := false }
    else s

/-- The clamping part of `tarrow.position_and_show_overlay` (the four
`if` statements): each side is checked against, and restored
coordinates are taken from, the rectangle captured once at `p0` —
`overlay_rect` in the source — not the rectangle after earlier moves. -/
def clampOverlay (screen_geom : Rect) (ov_w ov_h : Int) (p0 : Point) : Point :=
  let r : Rect := ⟨p0.x, p0.y, ov_w, ov_h⟩
  let p1 := if screen_geom.right < r.right then
              (⟨screen_geom.right - ov_w, r.y⟩ : Point) else p0
  let p2 := if r.left < screen_geom.left then
              (⟨screen_geom.left, r.y⟩ : Point) else p1
  let p3 := if screen_geom.bottom < r.bottom then
              (⟨r.x, screen_geom.bottom - ov_h⟩ : Point) else p2
  if r.top < screen_geom.top then (⟨r.x, screen_geom.top⟩ : Point) else p3

/-- The overlay position computed by `tarrow.position_and_show_overlay`
for a given trigger widget and screen: start to the right of the trigger
(`x + width + 10`, vertically centered on it), then clamp. -/
def place_overlay (trigger : WidgetGeom) (screen_geom : Rect)
    (ov_w ov_h : Int) : Point :=
  let overlay_x := trigger.pos.x + trigger.width + 10
  let overlay_y := trigger.pos.y + Int.fdiv trigger.height 2 - Int.fdiv ov_h 2
  clampOverlay screen_geom ov_w ov_h ⟨overlay_x, overlay_y⟩

/-- `tarrow.position_and_show_overlay`: pick the trigger widget and its
screen by `compact_mode`, place the overlay, and mark it visible. -/
def position_and_show_overlay (s : AppState) : AppState :=
  let trigger :=
    if s.compact_mode then s.compact_hud
    else ⟨s.arrow.pos, s.arrow.width, s.arrow.height⟩
  let screen_geom :=
    if s.compact_mode then s.compact_hud_screen else s.arrow.screen.geom
  let p := place_overlay trigger screen_geom s.overlay.width s.overlay.height
  { s with overlay := { s.overlay with pos := p }, overlay_visible := true }

/-- `tarrow.toggle_pin_overlay`: flip the pin latch (mirrored onto the
arrow's pin indicator outside compact mode) and, if the overlay is not
visible, position and show it. -/
def toggle_pin_overlay (s : AppState) : AppState :=
  let new_pinned := ! s.overlay_pinned
  let s := { s with overlay_pinned := new_pinned
                    arrow := if ¬ s.compact_mode then set_pinned s.arrow new_pinned
                             else s.arrow }
  if ¬ s.overlay_visible then position_and_show_overlay s else s

/-- The alert recomputation of `tarrow.update_stats`:
`cpu >= threshold or mem >= threshold`. -/
def isHighUsage (s : AppState) (cpu mem : ℚ) : Bool :=
  decide (s.alert_threshold ≤ cpu) || decide (s.alert_threshold ≤ mem)

/-- The alert-handling tail of `tarrow.update_stats`: recompute the
high-usage flag from the snapshot and, only when it changed, store it
and (outside compact mode) forward it to `EdgeArrow.set_alert_state`. -/
def update_stats (s : AppState) (cpu mem : ℚ) : AppState :=
  let is_high := isHighUsage s cpu mem
  if is_high ≠ s.high_resource_usage then
    let s := { s with high_resource_usage := is_high }
    if ¬ s.compact_mode then { s with arrow := set_alert_state s.arrow is_high }
    else s
  else s

/-- The parsed content of `~/.tarrow.json` as far as the docking
subsystem reads it; each field is `none` when the key is absent
(`settings.get`).  Panel-content flags (`show_*`, opacity, interval,
hotkey) only configure presentation and the worker; they are outside
this model. -/
structure Settings where
  screen_name : Option String
  edge : Option Edge
  edge_position : Option ℚ
  compact_mode : Option Bool
  compact_hud_pos : Option Point
  alert_threshold : Option ℚ
deriving DecidableEq, Repr

/-- The screen-name lookup loop of `tarrow.load_settings`: the first
attached screen with the stored name, if any. -/
def findScreenByName (screens : List Screen) (nm : String) : Option Screen :=
  screens.find? (fun s => s.name = nm)

/-- `tarrow.load_settings`: `none` models a missing or malformed
settings file, after which every field keeps its in-memory value
(the `except` branch only logs).  On a successful parse the stored
screen name is resolved against the attached screens, substituting
`primary` when absent, while edge and position come from the file
(with the source's defaults `'right'` and `0.5`). -/
def load_settings (s : AppState) (parsed : Option Settings)
    (screens : List Screen) (primary : Screen) : AppState :=
  match parsed with
  | none => s
  | some st =>
      let s := { s with compact_mode := st.compact_mode.getD false }
      let s :=
        match st.compact_hud_pos with
        | some p => { s with compact_hud := { s.compact_hud with pos := p } }
        | none => s
      let target_screen :=
        match st.screen_name with
        | some nm => findScreenByName screens nm
        | none => none
      let a := { s.arrow with
                   screen := target_screen.getD primary
                   edge := st.edge.getD Edge.right
                   edge_position := st.edge_position.getD (mkRat 1 2) }
      let a := position_on_edge (update_sizes_for_edge a)
      { s with arrow := a, alert_threshold := st.alert_threshold.getD 95 }

/-! ### Concrete fixtures for witnesses and scenarios -/

/-- A 1920×1080 screen at the virtual-desktop origin. -/
def screen1920 : Screen := ⟨"DP-1", ⟨0, 0, 1920, 1080⟩⟩

/-- A concrete trigger state: docked on the right edge of `screen1920`
with the vertical base size, alert off. -/
def demoArrow : ArrowState :=
  { edge := .right
    edge_position := 1
    screen := screen1920
    pos := ⟨1890, 510⟩
    width := 30
    height := 60
    base_size := (30, 60)
    expanded_size := (40, 80)
    is_pinned := false
    is_alert := false
    alert_opacity := 0
    alert_increasing := true
    breathing_running := false }

/-- A concrete application state around `demoArrow`: panel hidden,
unpinned, hotkey up, full (non-compact) mode, default threshold 95. -/
def demoApp : AppState :=
  { arrow := demoArrow
    overlay := ⟨⟨1560, 300⟩, 320, 400⟩
    overlay_pinned := false
    overlay_visible := false
    compact_hud := ⟨⟨100, 100⟩, 120, 40⟩
    compact_hud_screen := ⟨0, 0, 1920, 1080⟩
    compact_mode := false
    hotkey_is_down := false
    high_resource_usage := false
    alert_threshold := 95 }

/-! ### C10 — click on the trigger while hidden always shows the panel -/

/-- Claim C10: a primary-button click on the trigger while the panel is
hidden transitions the panel to visible, whichever way the pin latch
flips — the show is conditioned only on the panel not being visible. -/
theorem toggle_pin_shows_when_hidden (s : AppState)
    (h : s.overlay_visible = false) :
    (toggle_pin_overlay s).overlay_visible = true ∧
    (toggle_pin_overlay s).overlay_pinned = (! s.overlay_pinned) := by
  simp [toggle_pin_overlay, position_and_show_overlay, h]

/-- Witness for `toggle_pin_shows_when_hidden` at the concrete state
`demoApp` (hidden, unpinned). -/
theorem toggle_pin_shows_when_hidden_witness :
    (toggle_pin_overlay demoApp).overlay_visible = true ∧
    (toggle_pin_overlay demoApp).overlay_pinned = (! demoApp.overlay_pinned) :=
  toggle_pin_shows_when_hidden demoApp rfl

/-! ### C1 — the 100ms reconciliation tick -/

/-- Claim C1: at a reconciliation tick, if the panel is visible, not
pinned, the hotkey is not held, and the cursor is outside both the
trigger widget's rectangle and the panel's rectangle, the tick hides the
panel; if any of those conditions fails, the tick leaves the state (in
particular the visibility) unchanged. -/
theorem check_hover_tick (s : AppState) (cursor : Point) :
    ((s.overlay_visible = true ∧ s.overlay_pinned = false ∧
      s.hotkey_is_down = false ∧
      (if s.compact_mode then s.compact_hud.rect
       else s.arrow.rect).containsPt cursor = false ∧
      s.overlay.rect.containsPt cursor = false) →
      (check_hover_state s cursor).overlay_visible = false) ∧
    ((s.overlay_visible = false ∨ s.overlay_pinned = true ∨
      s.hotkey_is_down = true ∨
      (if s.compact_mode then s.compact_hud.rect
       else s.arrow.rect).containsPt cursor = true ∨
      s.overlay.rect.containsPt cursor = true) →
      check_hover_state s cursor = s) := by
  constructor
  · rintro ⟨h1, h2, h3, h4, h5⟩
    simp [check_hover_state, h1, h2, h3, h4, h5]
  · intro h
    rcases h with h | h | h | h | h
    · simp [check_hover_state, h]
    · simp [check_hover_state, h]
    · simp [check_hover_state, h]
    · simp [check_hover_state, h]
    · simp [check_hover_state, h]

/-- Witness for `check_hover_tick`: at the concrete visible, unpinned
state the cursor (500, 500) is outside both rectangles and the tick
hides the panel. -/
theorem check_hover_tick_witness :
    (check_hover_state { demoApp with overlay_visible := true }
      ⟨500, 500⟩).overlay_visible = false ∧
    check_hover_state
      { demoApp with overlay_visible := true, overlay_pinned := true }
      ⟨500, 500⟩ =
      { demoApp with overlay_visible := true, overlay_pinned := true } :=
  ⟨(check_hover_tick { demoApp with overlay_visible := true } ⟨500, 500⟩).1
      ⟨rfl, rfl, rfl, by decide, by decide⟩,
   (check_hover_tick
      { demoApp with overlay_visible := true, overlay_pinned := true }
      ⟨500, 500⟩).2 (Or.inr (Or.inl rfl))⟩

/-! ### C6 — threshold comparison and edge-triggered alert transitions -/

/-- Claim C6: each snapshot recomputes the alert flag as
`cpu >= threshold or mem >= threshold`; the start/stop side effect fires
only on a change of that flag (an unchanged flag leaves the state
untouched); and on the CPU sequence 92, 96, 97, 94 with threshold 95 the
flag goes up at the second sample and down at the fourth, with the
breathing timer running exactly in that window. -/
theorem update_stats_edge_triggered :
    (∀ (s : AppState) (cpu mem : ℚ),
      (update_stats s cpu mem).high_resource_usage = isHighUsage s cpu mem) ∧
    (∀ (s : AppState) (cpu mem : ℚ),
      isHighUsage s cpu mem = s.high_resource_usage →
      update_stats s cpu mem = s) ∧
    ((update_stats demoApp 92 0).high_resource_usage = false ∧
     (update_stats demoApp 92 0).arrow.breathing_running = false ∧
     (update_stats (update_stats demoApp 92 0) 96 0).high_resource_usage = true ∧
     (update_stats (update_stats demoApp 92 0) 96 0).arrow.breathing_running = true ∧
     (update_stats (update_stats (update_stats demoApp 92 0) 96 0) 97
        0).high_resource_usage = true ∧
     (update_stats (update_stats (update_stats demoApp 92 0) 96 0) 97
        0).arrow.breathing_running = true ∧
     (update_stats (update_stats (update_stats (update_stats demoApp 92 0) 96 0)
        97 0) 94 0).high_resource_usage = false ∧
     (update_stats (update_stats (update_stats (update_stats demoApp 92 0) 96 0)
        97 0) 94 0).arrow.breathing_running = false) := by
  refine ⟨?_, ?_, ?_⟩
  · intro s cpu mem
    unfold update_stats
    by_cases h : isHighUsage s cpu mem = s.high_resource_usage
    · simp [h]
    · simp only [h, if_true, ne_eq, not_false_eq_true, if_pos]
      split
      · rfl
      · rfl
  · intro s cpu mem h
    simp [update_stats, h]
  · exact ⟨by decide, by decide, by decide, by decide, by decide, by decide,
      by decide, by decide⟩

/-- Witness for `update_stats_edge_triggered`: a snapshot that does not
change the flag (CPU 92 < 95) leaves the whole state untouched. -/
theorem update_stats_edge_triggered_witness :
    update_stats demoApp 92 0 = demoApp :=
  update_stats_edge_triggered.2.1 demoApp 92 0 (by decide)

/-! ### Helper lemmas -/

theorem targetScreen_some (screens : List Screen) (p : Point)
    (h : screens ≠ []) : ∃ s, targetScreen screens p = some s := by
  unfold targetScreen
  cases hf : findContaining screens p with
  | some s => exact ⟨s, rfl⟩
  | none =>
    cases screens with
    | nil => exact absurd rfl h
    | cons s rest => exact ⟨loopMin p s rest, rfl⟩

theorem calculate_some (screens : List Screen) (p : Point)
    (h : screens ≠ []) :
    ∃ e q s, calculate_edge_and_position screens p = some (e, q, s) := by
  obtain ⟨s, hs⟩ := targetScreen_some screens p h
  refine ⟨(edgeAndPos s.geom p).1, (edgeAndPos s.geom p).2, s, ?_⟩
  unfold calculate_edge_and_position
  rw [hs]

theorem position_on_edge_base_size (a : ArrowState) :
    (position_on_edge a).base_size = a.base_size := by
  unfold position_on_edge
  split <;> rfl

theorem position_on_edge_edge (a : ArrowState) :
    (position_on_edge a).edge = a.edge := by
  unfold position_on_edge
  split <;> rfl

theorem position_on_edge_edge_position (a : ArrowState) :
    (position_on_edge a).edge_position = a.edge_position := by
  unfold position_on_edge
  split <;> rfl

theorem position_on_edge_screen (a : ArrowState) :
    (position_on_edge a).screen = a.screen := by
  unfold position_on_edge
  split <;> rfl

theorem position_on_edge_expanded_size (a : ArrowState) :
    (position_on_edge a).expanded_size = a.expanded_size := by
  unfold position_on_edge
  split <;> rfl

theorem update_sizes_for_edge_edge (a : ArrowState) :
    (update_sizes_for_edge a).edge = a.edge := by
  unfold update_sizes_for_edge
  split <;> rfl

theorem update_sizes_for_edge_edge_position (a : ArrowState) :
    (update_sizes_for_edge a).edge_position = a.edge_position := by
  unfold update_sizes_for_edge
  split <;> rfl

theorem update_sizes_for_edge_screen (a : ArrowState) :
    (update_sizes_for_edge a).screen = a.screen := by
  unfold update_sizes_for_edge
  split <;> rfl

theorem sizesMatchEdge_update_sizes (a : ArrowState) :
    sizesMatchEdge (update_sizes_for_edge a) = true := by
  cases h : a.edge <;>
    simp [sizesMatchEdge, update_sizes_for_edge, Edge.isHorizontal, h]

theorem orient_cond_iff (b c : Bool) :
    ((¬ b = true ∧ c = true) ∨ (b = true ∧ ¬ c = true)) ↔ b ≠ c := by
  cases b <;> cases c <;> simp

theorem sizesMatchEdge_position_on_edge (b : ArrowState) :
    sizesMatchEdge (position_on_edge b) = sizesMatchEdge b := by
  unfold sizesMatchEdge
  rw [position_on_edge_edge, position_on_edge_base_size,
    position_on_edge_expanded_size]

theorem update_sizes_for_edge_base_size (b : ArrowState) :
    (update_sizes_for_edge b).base_size =
      (if b.edge.isHorizontal then ((60 : Int), (30 : Int))
       else ((30 : Int), (60 : Int))) := by
  cases h : b.edge <;>
    simp [update_sizes_for_edge, Edge.isHorizontal, h]

theorem sizesMatchEdge_base_size (b : ArrowState)
    (hm : sizesMatchEdge b = true) :
    b.base_size =
      (if b.edge.isHorizontal then ((60 : Int), (30 : Int))
       else ((30 : Int), (60 : Int))) := by
  unfold sizesMatchEdge at hm
  by_cases h : b.edge.isHorizontal = true
  · rw [if_pos h] at hm ⊢
    simp only [Bool.and_eq_true, decide_eq_true_eq] at hm
    exact hm.1
  · rw [if_neg h] at hm ⊢
    simp only [Bool.and_eq_true, decide_eq_true_eq] at hm
    exact hm.1

theorem sizesMatchEdge_congr (b c : ArrowState)
    (h1 : b.edge.isHorizontal = c.edge.isHorizontal)
    (h2 : b.base_size = c.base_size)
    (h3 : b.expanded_size = c.expanded_size) :
    sizesMatchEdge b = sizesMatchEdge c := by
  unfold sizesMatchEdge
  rw [h1, h2, h3]

theorem mouseReleaseEvent_of_some (screens : List Screen) (a : ArrowState)
    (p : Point) (e : Edge) (q : ℚ) (s : Screen)
    (hc : calculate_edge_and_position screens p = some (e, q, s)) :
    mouseReleaseEvent screens a p =
      position_on_edge
        (if (¬ a.edge.isHorizontal ∧ e.isHorizontal) ∨
            (a.edge.isHorizontal ∧ ¬ e.isHorizontal) then
          update_sizes_for_edge { a with edge := e, edge_position := q, screen := s }
        else { a with edge := e, edge_position := q, screen := s }) := by
  unfold mouseReleaseEvent
  rw [hc]

/-! ### C4 — dock orientation invariant on drag-commit -/

/-- Claim C4: after a drag-commit the trigger's size class matches the
committed edge's orientation (base 30×60 / expanded 40×80 for left or
right, 60×30 / 80×40 for top or bottom), and the size pair changes
exactly when the old and new edges differ in orientation. -/
theorem commit_orientation (screens : List Screen) (a : ArrowState)
    (p : Point) (hne : screens ≠ []) (hm : sizesMatchEdge a = true) :
    sizesMatchEdge (mouseReleaseEvent screens a p) = true ∧
    ((mouseReleaseEvent screens a p).base_size ≠ a.base_size ↔
      (mouseReleaseEvent screens a p).edge.isHorizontal ≠
        a.edge.isHorizontal) := by
  obtain ⟨e, q, s, hc⟩ := calculate_some screens p hne
  rw [mouseReleaseEvent_of_some screens a p e q s hc]
  by_cases hcond :
      (¬ a.edge.isHorizontal = true ∧ e.isHorizontal = true) ∨
      (a.edge.isHorizontal = true ∧ ¬ e.isHorizontal = true)
  · have hor : a.edge.isHorizontal ≠ e.isHorizontal :=
      (orient_cond_iff _ _).mp hcond
    rw [if_pos hcond]
    constructor
    · rw [sizesMatchEdge_position_on_edge]
      exact sizesMatchEdge_update_sizes _
    · rw [position_on_edge_base_size, position_on_edge_edge,
        update_sizes_for_edge_edge, update_sizes_for_edge_base_size,
        sizesMatchEdge_base_size a hm]
      show ((if Edge.isHorizontal e = true then ((60 : Int), (30 : Int))
        else ((30 : Int), (60 : Int))) ≠ _) ↔ _
      cases h1 : a.edge.isHorizontal <;> cases h2 : e.isHorizontal <;>
        simp_all
  · have hor : a.edge.isHorizontal = e.isHorizontal := by
      rcases Bool.eq_false_or_eq_true a.edge.isHorizontal with h1 | h1 <;>
        rcases Bool.eq_false_or_eq_true e.isHorizontal with h2 | h2 <;>
          simp_all
    rw [if_neg hcond]
    constructor
    · rw [sizesMatchEdge_position_on_edge]
      rw [sizesMatchEdge_congr
        { a with edge := e, edge_position := q, screen := s } a
        (by exact hor.symm) rfl rfl]
      exact hm
    · rw [position_on_edge_base_size, position_on_edge_edge]
      simp [hor]

/-- Witness for `commit_orientation`: committing a drag released at
(100, 1070) on the single 1920×1080 screen from the right-docked
`demoArrow` (sizes matching). -/
theorem commit_orientation_witness :
    sizesMatchEdge (mouseReleaseEvent [screen1920] demoArrow ⟨100, 1070⟩)
      = true ∧
    ((mouseReleaseEvent [screen1920] demoArrow ⟨100, 1070⟩).base_size ≠
        demoArrow.base_size ↔
      (mouseReleaseEvent [screen1920] demoArrow
          ⟨100, 1070⟩).edge.isHorizontal ≠ demoArrow.edge.isHorizontal) :=
  commit_orientation [screen1920] demoArrow ⟨100, 1070⟩ (by decide)
    (by decide)

/-! ### C5 — breathing-phase bounds -/

theorem mkRat_one_twenty : (mkRat 1 20 : ℚ) = 1 / 20 := by
  rw [Rat.mkRat_eq_div]
  norm_num

theorem mkRat_one_five : (mkRat 1 5 : ℚ) = 1 / 5 := by
  rw [Rat.mkRat_eq_div]
  norm_num

/-- Claim C5 is false as stated: activation resets the phase to 0, so
the first breathing tick after the inactive→active edge yields phase
0.05, outside [0.2, 1.0], while the alert is active; moreover the phase
is also reset to 0 on the inactive→active edge, not only on the
active→inactive one. -/
theorem breathing_phase_counterexample :
    ((set_alert_state demoArrow true).is_alert = true ∧
     (update_breathing (set_alert_state demoArrow true)).alert_opacity <
       mkRat 1 5) ∧
    (set_alert_state { demoArrow with alert_opacity := 1 }
        true).alert_opacity = 0 := by
  refine ⟨⟨rfl, ?_⟩, ?_⟩
  · have h1 : set_alert_state demoArrow true =
        { demoArrow with
            is_alert := true
            alert_opacity := 0
            alert_increasing := true
            breathing_running := true } := by
      simp [set_alert_state, demoArrow]
    rw [h1]
    norm_num [update_breathing, demoArrow, mkRat_one_twenty, mkRat_one_five]
  · simp [set_alert_state, demoArrow]

/-- One breathing tick keeps the phase inside [0, 1]. -/
theorem update_breathing_mem_unit (a : ArrowState)
    (h0 : 0 ≤ a.alert_opacity) (h1 : a.alert_opacity ≤ 1) :
    0 ≤ (update_breathing a).alert_opacity ∧
    (update_breathing a).alert_opacity ≤ 1 := by
  unfold update_breathing
  by_cases hinc : a.alert_increasing = true
  · rw [if_pos hinc]
    by_cases hcap : (1 : ℚ) ≤ a.alert_opacity + mkRat 1 20
    · rw [if_pos hcap]
      norm_num
    · rw [if_neg hcap]
      rw [mkRat_one_twenty] at hcap
      constructor
      · show (0 : ℚ) ≤ a.alert_opacity + mkRat 1 20
        rw [mkRat_one_twenty]
        linarith
      · show a.alert_opacity + mkRat 1 20 ≤ 1
        rw [mkRat_one_twenty]
        linarith
  · rw [if_neg hinc]
    by_cases hflo : a.alert_opacity - mkRat 1 20 ≤ mkRat 1 5
    · rw [if_pos hflo]
      constructor
      · show (0 : ℚ) ≤ mkRat 1 5
        rw [mkRat_one_five]
        norm_num
      · show (mkRat 1 5 : ℚ) ≤ 1
        rw [mkRat_one_five]
        norm_num
    · rw [if_neg hflo]
      rw [mkRat_one_twenty, mkRat_one_five] at hflo
      constructor
      · show (0 : ℚ) ≤ a.alert_opacity - mkRat 1 20
        rw [mkRat_one_twenty]
        linarith
      · show a.alert_opacity - mkRat 1 20 ≤ 1
        rw [mkRat_one_twenty]
        linarith

/-- Claim C5 amended: once the phase lies in [0.2, 1.0] a breathing tick
keeps it there; from any phase in [0, 1] (in particular the activation
value 0) arbitrarily many ticks stay in [0, 1]; the phase is reset to 0
and the timer stopped on the active→inactive edge; and the phase is
also initialized to 0 (timer started) on the inactive→active edge, so
immediately after activation it ramps through [0, 0.2) before entering
the band. -/
theorem breathing_phase_amended :
    (∀ a : ArrowState,
      mkRat 1 5 ≤ a.alert_opacity → a.alert_opacity ≤ 1 →
      mkRat 1 5 ≤ (update_breathing a).alert_opacity ∧
      (update_breathing a).alert_opacity ≤ 1) ∧
    (∀ (a : ArrowState) (n : ℕ),
      0 ≤ a.alert_opacity → a.alert_opacity ≤ 1 →
      0 ≤ (update_breathing^[n] a).alert_opacity ∧
      (update_breathing^[n] a).alert_opacity ≤ 1) ∧
    (∀ a : ArrowState, a.is_alert = true →
      (set_alert_state a false).alert_opacity = 0 ∧
      (set_alert_state a false).breathing_running = false) ∧
    (∀ a : ArrowState, a.is_alert = false →
      (set_alert_state a true).alert_opacity = 0 ∧
      (set_alert_state a true).breathing_running = true) := by
  refine ⟨?_, ?_, ?_, ?_⟩
  · intro a h1 h2
    unfold update_breathing
    by_cases hinc : a.alert_increasing = true
    · rw [if_pos hinc]
      by_cases hcap : (1 : ℚ) ≤ a.alert_opacity + mkRat 1 20
      · rw [if_pos hcap]
        rw [mkRat_one_five]
        norm_num
      · rw [if_neg hcap]
        rw [mkRat_one_twenty] at hcap
        rw [mkRat_one_five] at h1 ⊢
        constructor
        · show (1 : ℚ) / 5 ≤ a.alert_opacity + mkRat 1 20
          rw [mkRat_one_twenty]
          linarith
        · show a.alert_opacity + mkRat 1 20 ≤ 1
          rw [mkRat_one_twenty]
          linarith
    · rw [if_neg hinc]
      by_cases hflo : a.alert_opacity - mkRat 1 20 ≤ mkRat 1 5
      · rw [if_pos hflo]
        rw [mkRat_one_five]
        norm_num
      · rw [if_neg hflo]
        rw [mkRat_one_twenty, mkRat_one_five] at hflo
        rw [mkRat_one_five] at h1 ⊢
        constructor
        · show (1 : ℚ) / 5 ≤ a.alert_opacity - mkRat 1 20
          rw [mkRat_one_twenty]
          linarith
        · show a.alert_opacity - mkRat 1 20 ≤ 1
          rw [mkRat_one_twenty]
          linarith
  · intro a n
    induction n generalizing a with
    | zero => exact fun h0 h1 => ⟨h0, h1⟩
    | succ n ih =>
        intro h0 h1
        rw [Function.iterate_succ_apply]
        obtain ⟨g0, g1⟩ := update_breathing_mem_unit a h0 h1
        exact ih (update_breathing a) g0 g1
  · intro a h
    simp [set_alert_state, h]
  · intro a h
    simp [set_alert_state, h]

/-- Witness for `breathing_phase_amended`: the in-band step from phase
1.0, seven ticks from the activation phase 0, and both reset edges, at
concrete states built from `demoArrow`. -/
theorem breathing_phase_amended_witness :
    (mkRat 1 5 ≤ (update_breathing
        { demoArrow with alert_opacity := 1, alert_increasing := false }).alert_opacity ∧
     (update_breathing
        { demoArrow with alert_opacity := 1, alert_increasing := false }).alert_opacity ≤ 1) ∧
    (0 ≤ (update_breathing^[7] demoArrow).alert_opacity ∧
     (update_breathing^[7] demoArrow).alert_opacity ≤ 1) ∧
    ((set_alert_state { demoArrow with is_alert := true }
        false).alert_opacity = 0 ∧
     (set_alert_state { demoArrow with is_alert := true }
        false).breathing_running = false) ∧
    ((set_alert_state demoArrow true).alert_opacity = 0 ∧
     (set_alert_state demoArrow true).breathing_running = true) :=
  ⟨breathing_phase_amended.1
      { demoArrow with alert_opacity := 1, alert_increasing := false }
      (by decide) (by decide),
   breathing_phase_amended.2.1 demoArrow 7 (by decide) (by decide),
   breathing_phase_amended.2.2.1 { demoArrow with is_alert := true } rfl,
   breathing_phase_amended.2.2.2 demoArrow rfl⟩

/-! ### C7 — trigger repositioning -/

theorem mkRat_one_two : (mkRat 1 2 : ℚ) = 1 / 2 := by
  rw [Rat.mkRat_eq_div]
  norm_num

/-- `demoArrow` at the spec scenario's dock: edge right, position 0.5. -/
def scenArrow : ArrowState := { demoArrow with edge_position := mkRat 1 2 }

theorem pyInt_midpoint_1020 : pyInt (mkRat 1 2 * (1020 : ℚ)) = 510 := by
  have h : (mkRat 1 2 : ℚ) * (1020 : ℚ) = 510 := by
    rw [mkRat_one_two]
    norm_num
  rw [pyInt, h]
  norm_num

/-- Claim C7: `position_on_edge` puts the trigger flush against the
docked boundary (its boundary-side coordinate coincides with the screen
boundary on all four edges) and offsets it along the edge by
`int(position * (edge_length - trigger_length))`; in particular, docked
at edge right, position 0.5 on a 1920×1080 screen at the origin with
the 30×60 base size, the trigger sits at (1890, 510), its vertical
center at y = 540 and its right side flush at x = 1919. -/
theorem position_on_edge_spec :
    (∀ a : ArrowState,
      (a.edge = Edge.right →
        (position_on_edge a).pos.x + a.width - 1 = a.screen.geom.right ∧
        (position_on_edge a).pos.y = a.screen.geom.y +
          pyInt (a.edge_position * ((a.screen.geom.h - a.height : Int) : ℚ))) ∧
      (a.edge = Edge.left →
        (position_on_edge a).pos.x = a.screen.geom.left ∧
        (position_on_edge a).pos.y = a.screen.geom.y +
          pyInt (a.edge_position * ((a.screen.geom.h - a.height : Int) : ℚ))) ∧
      (a.edge = Edge.top →
        (position_on_edge a).pos.y = a.screen.geom.top ∧
        (position_on_edge a).pos.x = a.screen.geom.x +
          pyInt (a.edge_position * ((a.screen.geom.w - a.width : Int) : ℚ))) ∧
      (a.edge = Edge.bottom →
        (position_on_edge a).pos.y + a.height - 1 = a.screen.geom.bottom ∧
        (position_on_edge a).pos.x = a.screen.geom.x +
          pyInt (a.edge_position * ((a.screen.geom.w - a.width : Int) : ℚ)))) ∧
    ((position_on_edge scenArrow).pos.x = 1890 ∧
     (position_on_edge scenArrow).pos.y = 510 ∧
     (position_on_edge scenArrow).pos.y + Int.fdiv scenArrow.height 2 = 540 ∧
     (position_on_edge scenArrow).pos.x + scenArrow.width - 1 =
       scenArrow.screen.geom.right) := by
  constructor
  · intro a
    refine ⟨?_, ?_, ?_, ?_⟩ <;> intro h <;>
      simp [position_on_edge, h, Rect.right, Rect.left, Rect.top,
        Rect.bottom] <;> omega
  · have hx : (position_on_edge scenArrow).pos.x = 1890 := by
      simp [position_on_edge, scenArrow, demoArrow, screen1920, Rect.right]
    have hy : (position_on_edge scenArrow).pos.y = 510 := by
      have h60 : ((1080 : Int) - 60 : Int) = (1020 : Int) := by norm_num
      simp [position_on_edge, scenArrow, demoArrow, screen1920, h60,
        pyInt_midpoint_1020]
    refine ⟨hx, hy, ?_, ?_⟩
    · rw [hy]
      decide
    · rw [hx]
      decide

/-- Witness for `position_on_edge_spec`: the right-edge flushness and
offset formula at the concrete state `demoArrow`. -/
theorem position_on_edge_spec_witness :
    (position_on_edge demoArrow).pos.x + demoArrow.width - 1 =
      demoArrow.screen.geom.right ∧
    (position_on_edge demoArrow).pos.y = demoArrow.screen.geom.y +
      pyInt (demoArrow.edge_position *
        ((demoArrow.screen.geom.h - demoArrow.height : Int) : ℚ)) :=
  ((position_on_edge_spec.1 demoArrow).1 rfl)

/-! ### C9 — settings loading -/

/-- A parsed settings file naming a screen that is not attached. -/
def stMissingScreen : Settings :=
  ⟨some "HDMI-2", some Edge.top, some (mkRat 3 10), none, none, none⟩

/-- Claim C9: when the stored screen name is not among the attached
screens, loading substitutes the primary screen while keeping the stored
edge and position; a missing or malformed settings file leaves the state
exactly as it was (in-memory defaults), with no failure. -/
theorem load_settings_screen_fallback :
    (∀ (s : AppState) (st : Settings) (screens : List Screen)
       (primary : Screen) (nm : String) (e : Edge) (q : ℚ),
      st.screen_name = some nm →
      (∀ sc ∈ screens, sc.name ≠ nm) →
      st.edge = some e →
      st.edge_position = some q →
      (load_settings s (some st) screens primary).arrow.screen = primary ∧
      (load_settings s (some st) screens primary).arrow.edge = e ∧
      (load_settings s (some st) screens primary).arrow.edge_position = q) ∧
    (∀ (s : AppState) (screens : List Screen) (primary : Screen),
      load_settings s none screens primary = s) := by
  constructor
  · intro s st screens primary nm e q hn habsent he hq
    have hfind : findScreenByName screens nm = none := by
      unfold findScreenByName
      rw [List.find?_eq_none]
      intro x hx
      simp only [decide_eq_true_eq]
      exact habsent x hx
    cases hp : st.compact_hud_pos with
    | none =>
        simp [load_settings, hn, hfind, he, hq, hp,
          position_on_edge_screen, update_sizes_for_edge_screen,
          position_on_edge_edge, update_sizes_for_edge_edge,
          position_on_edge_edge_position, update_sizes_for_edge_edge_position]
    | some pt =>
        simp [load_settings, hn, hfind, he, hq, hp,
          position_on_edge_screen, update_sizes_for_edge_screen,
          position_on_edge_edge, update_sizes_for_edge_edge,
          position_on_edge_edge_position, update_sizes_for_edge_edge_position]
  · intro s screens primary
    rfl

/-- Witness for `load_settings_screen_fallback`: loading settings that
name the unattached screen "HDMI-2" against the single attached
`screen1920`, and a malformed load at `demoApp`. -/
theorem load_settings_screen_fallback_witness :
    ((load_settings demoApp (some stMissingScreen) [screen1920]
        screen1920).arrow.screen = screen1920 ∧
     (load_settings demoApp (some stMissingScreen) [screen1920]
        screen1920).arrow.edge = Edge.top ∧
     (load_settings demoApp (some stMissingScreen) [screen1920]
        screen1920).arrow.edge_position = mkRat 3 10) ∧
    load_settings demoApp none [screen1920] screen1920 = demoApp :=
  ⟨load_settings_screen_fallback.1 demoApp stMissingScreen [screen1920]
      screen1920 "HDMI-2" Edge.top (mkRat 3 10) rfl (by decide) rfl rfl,
   load_settings_screen_fallback.2 demoApp [screen1920] screen1920⟩

/-! ### C3 — resolved positions are clamped to [0, 1] -/

theorem clamp01_bounds (q : ℚ) : 0 ≤ clamp01 q ∧ clamp01 q ≤ 1 := by
  unfold clamp01
  constructor
  · exact le_max_left 0 _
  · apply max_le
    · norm_num
    · exact min_le_left 1 q

theorem edgeAndPos_snd_bounds (g : Rect) (p : Point) :
    0 ≤ (edgeAndPos g p).2 ∧ (edgeAndPos g p).2 ≤ 1 := by
  unfold edgeAndPos
  dsimp only
  split_ifs <;> exact clamp01_bounds _

/-- Claim C3: for every input point — including points far outside any
screen — and every non-empty screen list, the resolver's returned
position lies in the closed interval [0, 1]. -/
theorem resolver_position_clamped (screens : List Screen) (p : Point)
    (h : screens ≠ []) :
    ∃ e q s, calculate_edge_and_position screens p = some (e, q, s) ∧
      0 ≤ q ∧ q ≤ 1 := by
  obtain ⟨s, hs⟩ := targetScreen_some screens p h
  refine ⟨(edgeAndPos s.geom p).1, (edgeAndPos s.geom p).2, s, ?_,
    (edgeAndPos_snd_bounds s.geom p).1, (edgeAndPos_snd_bounds s.geom p).2⟩
  unfold calculate_edge_and_position
  rw [hs]

/-- Witness for `resolver_position_clamped`: a point far outside the
single attached screen. -/
theorem resolver_position_clamped_witness :
    ∃ e q s,
      calculate_edge_and_position [screen1920] ⟨100000, -50000⟩ =
        some (e, q, s) ∧ 0 ≤ q ∧ q ≤ 1 :=
  resolver_position_clamped [screen1920] ⟨100000, -50000⟩ (by decide)

/-! ### C2 — screen selection -/

/-- The running-minimum loop returns the first-enumerated screen of
minimal clamped distance: it is minimal over `best :: l`, and every
screen listed before it has strictly greater distance. -/
theorem loopMin_spec (p : Point) (l : List Screen) (best : Screen) :
    (∀ t ∈ best :: l, dist2 p (loopMin p best l) ≤ dist2 p t) ∧
    ∃ pre post, best :: l = pre ++ loopMin p best l :: post ∧
      ∀ t ∈ pre, dist2 p (loopMin p best l) < dist2 p t := by
  induction l generalizing best with
  | nil =>
      constructor
      · intro t ht
        rw [List.mem_singleton] at ht
        subst ht
        exact le_refl _
      · exact ⟨[], [], rfl, by simp⟩
  | cons s rest ih =>
      by_cases h : dist2 p s < dist2 p best
      · have hred : loopMin p best (s :: rest) = loopMin p s rest := by
          show (if dist2 p s < dist2 p best then loopMin p s rest
            else loopMin p best rest) = loopMin p s rest
          rw [if_pos h]
        obtain ⟨ihmin, pre', post', hdecomp, hstrict⟩ := ih s
        have hrs : dist2 p (loopMin p s rest) ≤ dist2 p s :=
          ihmin s (List.mem_cons_self s rest)
        constructor
        · intro t ht
          rw [hred]
          rcases List.mem_cons.mp ht with rfl | ht'
          · exact le_of_lt (lt_of_le_of_lt hrs h)
          · exact ihmin t ht'
        · refine ⟨best :: pre', post', ?_, ?_⟩
          · rw [hred, List.cons_append, ← hdecomp]
          · intro t ht
            rw [hred]
            rcases List.mem_cons.mp ht with rfl | ht'
            · exact lt_of_le_of_lt hrs h
            · exact hstrict t ht'
      · have hred : loopMin p best (s :: rest) = loopMin p best rest := by
          show (if dist2 p s < dist2 p best then loopMin p s rest
            else loopMin p best rest) = loopMin p best rest
          rw [if_neg h]
        have hbs : dist2 p best ≤ dist2 p s := not_lt.mp h
        obtain ⟨ihmin, pre', post', hdecomp, hstrict⟩ := ih best
        have hrb : dist2 p (loopMin p best rest) ≤ dist2 p best :=
          ihmin best (List.mem_cons_self best rest)
        constructor
        · intro t ht
          rw [hred]
          rcases List.mem_cons.mp ht with rfl | ht'
          · exact hrb
          · rcases List.mem_cons.mp ht' with rfl | ht''
            · exact le_trans hrb hbs
            · exact ihmin t (List.mem_cons_of_mem _ ht'')
        · cases pre' with
          | nil =>
              rw [List.nil_append] at hdecomp
              have hr : best = loopMin p best rest :=
                (List.cons.injEq _ _ _ _ ▸ hdecomp : _ ∧ _).1
              refine ⟨[], s :: rest, ?_, by simp⟩
              rw [hred, List.nil_append, ← hr]
          | cons u pre'' =>
              rw [List.cons_append] at hdecomp
              have hq : best = u ∧ rest = pre'' ++ loopMin p best rest :: post' :=
                (List.cons.injEq _ _ _ _ ▸ hdecomp : _ ∧ _)
              have hstrictb : dist2 p (loopMin p best rest) < dist2 p best := by
                have := hstrict u (List.mem_cons_self u pre'')
                rw [← hq.1] at this
                exact this
              refine ⟨best :: s :: pre'', post', ?_, ?_⟩
              · rw [hred, List.cons_append, List.cons_append, ← hq.2]
              · intro t ht
                rw [hred]
                rcases List.mem_cons.mp ht with rfl | ht'
                · exact hstrictb
                · rcases List.mem_cons.mp ht' with rfl | ht''
                  · exact lt_of_lt_of_le hstrictb hbs
                  · exact hstrict t (hq.1 ▸ List.mem_cons_of_mem _ ht'')

/-- Claim C2: the resolver picks a containing screen when one exists;
otherwise it picks a screen minimizing the clamped-per-axis squared
distance, with ties broken in favor of the first-enumerated screen. -/
theorem resolver_screen_selection (screens : List Screen) (p : Point)
    (h : screens ≠ []) :
    ∃ e q s, calculate_edge_and_position screens p = some (e, q, s) ∧
      s ∈ screens ∧
      ((∃ t ∈ screens, t.geom.containsPt p = true) →
        s.geom.containsPt p = true) ∧
      ((∀ t ∈ screens, t.geom.containsPt p = false) →
        (∀ t ∈ screens, dist2 p s ≤ dist2 p t) ∧
        ∃ pre post, screens = pre ++ s :: post ∧
          ∀ t ∈ pre, dist2 p s < dist2 p t) := by
  cases hf : findContaining screens p with
  | some s0 =>
      have hf' : screens.find? (fun t => t.geom.containsPt p) = some s0 := hf
      have hcont0 := List.find?_some hf'
      have hcont : s0.geom.containsPt p = true := hcont0
      have hmem : s0 ∈ screens := List.mem_of_find?_eq_some hf'
      have htgt : targetScreen screens p = some s0 := by
        unfold targetScreen
        rw [hf]
      refine ⟨(edgeAndPos s0.geom p).1, (edgeAndPos s0.geom p).2, s0, ?_,
        hmem, ?_, ?_⟩
      · unfold calculate_edge_and_position
        rw [htgt]
      · intro _
        exact hcont
      · intro hout
        have := hout s0 hmem
        rw [this] at hcont
        exact absurd hcont (by simp)
  | none =>
      cases screens with
      | nil => exact absurd rfl h
      | cons s1 rest =>
          have htgt : targetScreen (s1 :: rest) p =
              some (loopMin p s1 rest) := by
            unfold targetScreen
            rw [hf]
            rfl
          obtain ⟨hmin, pre, post, hdecomp, hstrict⟩ := loopMin_spec p rest s1
          refine ⟨(edgeAndPos (loopMin p s1 rest).geom p).1,
            (edgeAndPos (loopMin p s1 rest).geom p).2, loopMin p s1 rest, ?_,
            ?_, ?_, ?_⟩
          · unfold calculate_edge_and_position
            rw [htgt]
          · rw [hdecomp]
            exact List.mem_append_right pre (List.mem_cons_self _ _)
          · intro hex
            obtain ⟨t, hmem, hcont⟩ := hex
            have hf' : (s1 :: rest).find? (fun t => t.geom.containsPt p)
                = none := hf
            have hnone := List.find?_eq_none.mp hf' t hmem
            rw [hcont] at hnone
            exact absurd rfl hnone
          · intro _
            exact ⟨hmin, pre, post, hdecomp, hstrict⟩

/-- A second attached screen to the right of `screen1920`. -/
def screenRight : Screen := ⟨"HDMI-1", ⟨1920, 0, 1920, 1080⟩⟩

/-- Witness for `resolver_screen_selection`: a point beyond the right
screen of a two-screen layout. -/
theorem resolver_screen_selection_witness :
    ∃ e q s,
      calculate_edge_and_position [screen1920, screenRight] ⟨4000, 500⟩ =
        some (e, q, s) ∧
      s ∈ [screen1920, screenRight] ∧
      ((∃ t ∈ [screen1920, screenRight], t.geom.containsPt ⟨4000, 500⟩ = true) →
        s.geom.containsPt ⟨4000, 500⟩ = true) ∧
      ((∀ t ∈ [screen1920, screenRight], t.geom.containsPt ⟨4000, 500⟩ = false) →
        (∀ t ∈ [screen1920, screenRight],
          dist2 ⟨4000, 500⟩ s ≤ dist2 ⟨4000, 500⟩ t) ∧
        ∃ pre post, [screen1920, screenRight] = pre ++ s :: post ∧
          ∀ t ∈ pre, dist2 ⟨4000, 500⟩ s < dist2 ⟨4000, 500⟩ t) :=
  resolver_screen_selection [screen1920, screenRight] ⟨4000, 500⟩ (by decide)

/-! ### C8 — panel placement and clamping -/

/-- `demoApp` with the trigger dragged to the bottom of the right edge
and a 320×400 overlay. -/
def cornerApp : AppState :=
  { demoApp with
      arrow := { demoArrow with pos := ⟨1890, 1020⟩ }
      overlay := ⟨⟨0, 0⟩, 320, 400⟩ }

/-- Claim C8 is false: with the trigger at the bottom of the right edge
of a 1920×1080 screen and a 320×400 panel (well inside the screen's
size), showing the panel leaves its rectangle sticking out past the
screen's right boundary — the panel starts to the right of the trigger
(toward the docked edge, not away from it) and the bottom clamp then
restores the unclamped x coordinate. -/
theorem overlay_clamp_counterexample :
    (position_and_show_overlay cornerApp).overlay_visible = true ∧
    screen1920.geom.right <
      (position_and_show_overlay cornerApp).overlay.rect.right := by
  constructor
  · rfl
  · decide

/-- Claim C8 amended: the panel is always positioned adjacent to the
trigger's right side (`x + width + 10`, vertically centered on the
trigger) whatever edge it is docked to; each of the four sides is then
clamped against the screen using the pre-clamp rectangle's coordinates.
Consequently the shown rectangle is inside the screen vertically
whenever the panel is shorter than the screen, and horizontally only
when no vertical clamp fired — a firing vertical clamp restores the
unclamped x coordinate. -/
theorem overlay_clamp_amended :
    (∀ (g : Rect) (ov_w ov_h : Int) (p0 : Point),
      0 < ov_h → ov_h < g.h →
      g.top ≤ (clampOverlay g ov_w ov_h p0).y ∧
      (clampOverlay g ov_w ov_h p0).y + ov_h - 1 ≤ g.bottom) ∧
    (∀ (g : Rect) (ov_w ov_h : Int) (p0 : Point),
      0 < ov_w → ov_w < g.w →
      g.top ≤ p0.y → p0.y + ov_h - 1 ≤ g.bottom →
      g.left ≤ (clampOverlay g ov_w ov_h p0).x ∧
      (clampOverlay g ov_w ov_h p0).x + ov_w - 1 ≤ g.right) ∧
    (∀ (g : Rect) (ov_w ov_h : Int) (p0 : Point),
      g.top ≤ p0.y → g.bottom < p0.y + ov_h - 1 →
      (clampOverlay g ov_w ov_h p0).x = p0.x) ∧
    (∀ (trigger : WidgetGeom) (g : Rect) (ov_w ov_h : Int),
      place_overlay trigger g ov_w ov_h =
        clampOverlay g ov_w ov_h
          ⟨trigger.pos.x + trigger.width + 10,
           trigger.pos.y + Int.fdiv trigger.height 2 - Int.fdiv ov_h 2⟩) := by
  refine ⟨?_, ?_, ?_, fun _ _ _ _ => rfl⟩
  · intro g ov_w ov_h p0 h1 h2
    unfold clampOverlay Rect.top Rect.bottom Rect.left Rect.right
    dsimp only
    split_ifs <;> (try dsimp only) <;> omega
  · intro g ov_w ov_h p0 h1 h2 h3 h4
    unfold clampOverlay Rect.top Rect.bottom Rect.left Rect.right at *
    dsimp only
    split_ifs <;> (try dsimp only) <;> omega
  · intro g ov_w ov_h p0 h1 h2
    unfold clampOverlay Rect.top Rect.bottom Rect.left Rect.right at *
    dsimp only
    split_ifs <;> rfl

/-- Witness for `overlay_clamp_amended`: the vertical clamp at the
pre-clamp point (1930, 850) and the horizontal clamp at (1930, 500) on
the 1920×1080 screen with a 320×400 panel. -/
theorem overlay_clamp_amended_witness :
    (screen1920.geom.top ≤
        (clampOverlay screen1920.geom 320 400 ⟨1930, 850⟩).y ∧
      (clampOverlay screen1920.geom 320 400 ⟨1930, 850⟩).y + 400 - 1 ≤
        screen1920.geom.bottom) ∧
    (screen1920.geom.left ≤
        (clampOverlay screen1920.geom 320 400 ⟨1930, 500⟩).x ∧
      (clampOverlay screen1920.geom 320 400 ⟨1930, 500⟩).x + 320 - 1 ≤
        screen1920.geom.right) ∧
    (clampOverlay screen1920.geom 320 400 ⟨1930, 850⟩).x = 1930 :=
  ⟨overlay_clamp_amended.1 screen1920.geom 320 400 ⟨1930, 850⟩ (by decide)
      (by decide),
   overlay_clamp_amended.2.1 screen1920.geom 320 400 ⟨1930, 500⟩ (by decide)
      (by decide) (by decide) (by decide),
   overlay_clamp_amended.2.2.1 screen1920.geom 320 400 ⟨1930, 850⟩
      (by decide) (by decide)⟩

end Tarrow







